import Mathlib

/-!
# Verification of `nes_rs` (a NES emulator in Rust) against its specification

This file shallowly embeds the parts of the `nes_rs` source that the
specification's claims are about, and proves or refutes each claim.

Conventions:
* Rust machine integers (`u8`, `u16`, `usize`) are modelled as `Nat`, with an
  explicit `% 2^w` at every operation where the source can overflow or
  truncate (`wrapping_add`, `as u8`, ...).  Operations whose operands are kept
  below the width by the surrounding code are left without a mod, with the
  bound carried as a hypothesis in the theorems.
* Fallible code (Rust `panic!`, out-of-bounds indexing, `Result`) is embedded
  with `Option` / `Except`: `none` models a panic.
* Fixed-size byte arrays (`[u8; N]`) are modelled as total functions
  `Nat → Nat`; every index used by the embedded code is reduced below `N`
  exactly where the source does so (masks, wrapping increments), and bounds
  checks guard the accesses where the source could panic.
-/

namespace NesRs

/-! ## CPU arithmetic: `CPU::add_to_register_a` (src/cpu/mod.rs)

```rust
fn add_to_register_a(&mut self, data: u8) {
    let sum = self.register_a as u16 + data as u16
        + (if self.status.contains(CPUFlags::CARRY) { 1 } else { 0 }) as u16;
    self.status.set(CPUFlags::CARRY, sum > 0xff);
    let result = sum as u8;
    self.status.set(CPUFlags::OVERFLOW,
        (data ^ result) & (result ^ self.register_a) & 0x80 != 0);
    self.set_register_a(result);
}
```
`CPU::adc` fetches the operand byte and calls this function, so the flag
behaviour of ADC is exactly the flag behaviour of `add_to_register_a`. -/

/-- Result and flag outputs of `CPU::add_to_register_a`: the new accumulator
value together with the Carry, Overflow, Zero and Negative flags it sets. -/
structure AdcResult where
  result : Nat
  carry : Bool
  overflow : Bool
  zero : Bool
  negative : Bool
deriving Repr, DecidableEq

/-- `CPU::add_to_register_a` — `a` is the accumulator, `data` the operand,
`carryIn` the CARRY flag on entry.  The `u16` sum cannot exceed `2^16` for
byte inputs, so no mod is needed on the sum; `sum as u8` is `% 256`.
`set_register_a` also updates the Zero and Negative flags. -/
def addToRegisterA (a data : Nat) (carryIn : Bool) : AdcResult :=
  let sum := a + data + (if carryIn then 1 else 0)
  let carry := decide (0xff < sum)
  let result := sum % 256
  let overflow := decide ((data ^^^ result) &&& (result ^^^ a) &&& 0x80 ≠ 0)
  { result := result, carry := carry, overflow := overflow,
    zero := decide (result = 0), negative := decide (result &&& 0b10000000 ≠ 0) }

/-! ## PPU registers (src/ppu/registers/\*.rs)

`bitflags` registers are embedded as the raw byte (`Nat < 256`); the
`set`/`contains` operations below are the `bitflags` ones specialised to
`u8`. -/

/-- `bitflags` `set`: `bits = (bits & !flag) | (if v { flag } else { 0 })`,
with `!flag` on `u8` being `0xff ^ flag`. -/
def setFlag (bits flag : Nat) (v : Bool) : Nat :=
  if v then bits ||| flag else bits &&& (0xff ^^^ flag)

/-- `bitflags` `contains`: `bits & flag == flag`. -/
def containsFlag (bits flag : Nat) : Bool := bits &&& flag == flag

/-- `PPUSTATUS::VBLANK_STARTED` (bit 7). -/
def statusVblankStarted : Nat := 1 <<< 7

/-- `PPUSTATUS::SPRITE_ZERO_HIT` (bit 6). -/
def statusSpriteZeroHit : Nat := 1 <<< 6

/-- `PPUCTRL::GENERATE_NMI` (bit 7). -/
def ctrlGenerateNmi : Nat := 1 <<< 7

/-- `PPUCTRL::VRAM_ADD_INCREMENT` (bit 2). -/
def ctrlVramAddIncrement : Nat := 1 <<< 2

/-- `Mirroring` (src/cartridge.rs). -/
inductive Mirroring where
  | vertical
  | horizontal
  | fourScreen
deriving Repr, DecidableEq

/-- `PPUADDR` (src/ppu/registers/addr.rs): high byte, low byte, and the
write latch (`true` = next write goes to the high byte). -/
structure PPUADDR where
  hi : Nat
  lo : Nat
  writeLatch : Bool
deriving Repr

/-- `PPUADDR::new`. -/
def PPUADDR.new : PPUADDR := ⟨0, 0, true⟩

/-- `PPUADDR::get`: `(hi as u16) << 8 | lo as u16`. -/
def PPUADDR.get (r : PPUADDR) : Nat := (r.hi <<< 8) ||| r.lo

/-- `PPUADDR::set`: splits a `u16` into high/low bytes (`as u8` = `% 256`). -/
def PPUADDR.set (r : PPUADDR) (data : Nat) : PPUADDR :=
  { r with hi := (data >>> 8) % 256, lo := data &&& 0xff }

/-- `PPUADDR::update`: one byte write steered by the latch, then the
source's "mirror down" step `if get() > 0x3fff { set(get() & 0x4000) }`,
then the latch is toggled. -/
def PPUADDR.update (r : PPUADDR) (data : Nat) : PPUADDR :=
  let r1 := if r.writeLatch then { r with hi := data } else { r with lo := data }
  let r2 := if 0x3fff < r1.get then r1.set (r1.get &&& 0x4000) else r1
  { r2 with writeLatch := !r2.writeLatch }

/-- `PPUADDR::increment`: `lo.wrapping_add(inc)` with carry into the high
byte when the low byte wrapped, then the same "mirror down" step as
`update`. -/
def PPUADDR.increment (r : PPUADDR) (inc : Nat) : PPUADDR :=
  let lo2 := (r.lo + inc) % 256
  let r1 := { r with lo := lo2, hi := if lo2 < r.lo then (r.hi + 1) % 256 else r.hi }
  if 0x3fff < r1.get then r1.set (r1.get &&& 0x4000) else r1

/-- `PPUADDR::reset_write_latch`. -/
def PPUADDR.resetWriteLatch (r : PPUADDR) : PPUADDR := { r with writeLatch := true }

/-- `PPUSCROLL` (src/ppu/registers/scroll.rs). -/
structure PPUSCROLL where
  x : Nat
  y : Nat
  latch : Bool
deriving Repr

/-- `PPUSCROLL::write`: the latch steers the byte to x or y (the source
does not toggle the latch here). -/
def PPUSCROLL.write (s : PPUSCROLL) (data : Nat) : PPUSCROLL :=
  if s.latch then { s with y := data } else { s with x := data }

/-- `PPUSCROLL::reset_latch`. -/
def PPUSCROLL.resetLatch (s : PPUSCROLL) : PPUSCROLL := { s with latch := false }

/-! ## The PPU (src/ppu/mod.rs) -/

/-- `PPU` state.  Byte arrays are total functions; `chrRomLen` records
`chr_rom.len()` so out-of-bounds indexing (a Rust panic) can be detected. -/
structure PPU where
  chrRom : Nat → Nat
  chrRomLen : Nat
  chrRam : Option (Nat → Nat)
  vram : Nat → Nat
  palette : Nat → Nat
  oamData : Nat → Nat
  ctrl : Nat
  ppuAddr : PPUADDR
  mirroring : Mirroring
  mask : Nat
  oamAddr : Nat
  scroll : PPUSCROLL
  status : Nat
  scanline : Nat
  cycles : Nat
  nmiInterrupt : Option Nat
  internalDataBuffer : Nat

/-- `PPU::tick`: advance `cycles` (a `usize`, hence the `% 2^64`); on
crossing 341 start a new scanline (`u16`, hence the `% 65536`); entering
scanline 241 sets VBLANK_STARTED and, when GENERATE_NMI is on, the NMI
flag; reaching scanline 262 resets the scanline, clears SPRITE_ZERO_HIT,
VBLANK_STARTED and the NMI flag and reports frame completion. -/
def PPU.tick (p : PPU) (n : Nat) : PPU × Bool :=
  let cyc := (p.cycles + n) % 2 ^ 64
  if 341 ≤ cyc then
    let p1 := { p with cycles := cyc - 341, scanline := (p.scanline + 1) % 65536 }
    let p2 :=
      if p1.scanline = 241 then
        { p1 with
          status := setFlag p1.status statusVblankStarted true
          nmiInterrupt :=
            if containsFlag p1.ctrl ctrlGenerateNmi then some 1 else p1.nmiInterrupt }
      else p1
    if 262 ≤ p2.scanline then
      ({ p2 with
         scanline := 0
         status := setFlag (setFlag p2.status statusSpriteZeroHit false)
           statusVblankStarted false
         nmiInterrupt := none }, true)
    else (p2, false)
  else ({ p with cycles := cyc }, false)

/-- `PPU::read_status`: returns the status byte, then clears
VBLANK_STARTED and resets the address write latch and the scroll latch. -/
def PPU.readStatus (p : PPU) : Nat × PPU :=
  (p.status,
   { p with
     status := setFlag p.status statusVblankStarted false
     ppuAddr := p.ppuAddr.resetWriteLatch
     scroll := p.scroll.resetLatch })

/-- `PPU::mirror_vram_addr`. -/
def PPU.mirrorVramAddr (p : PPU) (addr : Nat) : Nat :=
  let mirroredVram := addr &&& 0x2fff
  let vramIndex := mirroredVram - 0x2000
  let nameTable := vramIndex / 0x400
  match p.mirroring, nameTable with
  | .vertical, 2 | .vertical, 3 => vramIndex - 2 * 0x400
  | .horizontal, 2 => vramIndex - 0x400
  | .horizontal, 1 => vramIndex - 0x400
  | .horizontal, 3 => vramIndex - 2 * 0x400
  | _, _ => vramIndex

/-- `PPU::increment_vram_addr`: add 32 or 1 according to
`PPUCTRL::VRAM_ADD_INCREMENT`. -/
def PPU.incrementVramAddr (p : PPU) : PPU :=
  if containsFlag p.ctrl ctrlVramAddIncrement then
    { p with ppuAddr := p.ppuAddr.increment 32 }
  else
    { p with ppuAddr := p.ppuAddr.increment 1 }

/-- `PPU::read_data` ($2007 read): buffered reads from CHR/VRAM, direct
reads from the palette; `none` models the panics (unused range
0x3000-0x3eff, out-of-bounds indexing, addresses above 0x3fff). -/
def PPU.readData (p : PPU) : Option (Nat × PPU) :=
  let addr := p.ppuAddr.get
  let p := p.incrementVramAddr
  if addr ≤ 0x1fff then
    match p.chrRam with
    | some ram => some (p.internalDataBuffer, { p with internalDataBuffer := ram addr })
    | none =>
      if addr < p.chrRomLen then
        some (p.internalDataBuffer, { p with internalDataBuffer := p.chrRom addr })
      else none
  else if addr ≤ 0x2fff then
    let m := p.mirrorVramAddr addr
    if m < 2048 then
      some (p.internalDataBuffer, { p with internalDataBuffer := p.vram m })
    else none
  else if addr ≤ 0x3eff then none
  else if addr = 0x3f10 ∨ addr = 0x3f14 ∨ addr = 0x3f18 ∨ addr = 0x3f1c then
    some (p.palette (addr - 0x10 - 0x3f00), p)
  else if addr ≤ 0x3fff then
    let idx := addr - 0x3f00
    if idx < 32 then some (p.palette idx, p) else none
  else none

/-- `PPU::write_to_data` ($2007 write); `none` models the panics. -/
def PPU.writeToData (p : PPU) (value : Nat) : Option PPU :=
  let addr := p.ppuAddr.get
  let p := p.incrementVramAddr
  if addr ≤ 0x1fff then
    match p.chrRam with
    | some ram =>
      some { p with chrRam := some (fun i => if i = addr then value else ram i) }
    | none => some p
  else if addr ≤ 0x2fff then
    let m := p.mirrorVramAddr addr
    if m < 2048 then
      some { p with vram := fun i => if i = m then value else p.vram i }
    else none
  else if addr ≤ 0x3eff then none
  else if addr = 0x3f10 ∨ addr = 0x3f14 ∨ addr = 0x3f18 ∨ addr = 0x3f1c then
    some { p with palette := fun i => if i = addr - 0x10 - 0x3f00 then value else p.palette i }
  else if addr ≤ 0x3fff then
    let idx := addr - 0x3f00
    if idx < 32 then
      some { p with palette := fun i => if i = idx then value else p.palette i }
    else none
  else none

/-- `PPU::write_to_controller`: replaces the control byte and raises an
immediate NMI when GENERATE_NMI goes 0→1 during vblank. -/
def PPU.writeToController (p : PPU) (value : Nat) : PPU :=
  let before := containsFlag p.ctrl ctrlGenerateNmi
  { p with
    ctrl := value
    nmiInterrupt :=
      if !before && containsFlag value ctrlGenerateNmi &&
          containsFlag p.status statusVblankStarted then
        some 1
      else p.nmiInterrupt }

/-- `PPU::write_to_oam_data`: store at `oam_addr`, then `wrapping_add(1)`
the pointer. -/
def PPU.writeToOamData (p : PPU) (value : Nat) : PPU :=
  { p with
    oamData := fun i => if i = p.oamAddr then value else p.oamData i
    oamAddr := (p.oamAddr + 1) % 256 }

/-- `PPU::write_oam_dma`: the copy loop — for each byte of `data`, store it
at `oam_addr` and advance the pointer with wraparound. -/
def PPU.writeOamDma (p : PPU) (data : List Nat) : PPU :=
  data.foldl (fun q x =>
    { q with
      oamData := fun i => if i = q.oamAddr then x else q.oamData i
      oamAddr := (q.oamAddr + 1) % 256 }) p

/-! ## Joypad (src/joypad/mod.rs) -/

/-- `Joypad`: strobe flag, read cursor (`button_index`, a `u8`), and the
button bitmask byte (A, B, Select, Start, Up, Down, Left, Right = bits
0..7). -/
structure Joypad where
  strobe : Bool
  buttonIndex : Nat
  buttonStatus : Nat
deriving Repr

/-- `Joypad::write`: strobe is bit 0 of the byte; a high strobe resets the
cursor. -/
def Joypad.write (j : Joypad) (data : Nat) : Joypad :=
  let strobe := data &&& 1 == 1
  { j with strobe := strobe, buttonIndex := if strobe then 0 else j.buttonIndex }

/-- `Joypad::read`: past the 8th button always return 1; otherwise extract
bit `button_index` of the bitmask and, when strobe is low, advance the
cursor. -/
def Joypad.read (j : Joypad) : Nat × Joypad :=
  if 7 < j.buttonIndex then (1, j)
  else
    let response := (j.buttonStatus &&& (1 <<< j.buttonIndex)) >>> j.buttonIndex
    if !j.strobe && decide (j.buttonIndex ≤ 7) then
      (response, { j with buttonIndex := j.buttonIndex + 1 })
    else (response, j)

/-! ## The Bus (src/bus/mod.rs)

`mem_read` and `mem_write` are embedded as `Option`-valued functions
(`none` = panic), threading the bus because reads of $2002/$2007/$4016
mutate state.  The source's mirror arm (`0x2008..=0x3FFF`) recurses into
`mem_read`/`mem_write` with an address masked into `0x2000..0x2007`, which
the other arms then handle; the embedding hoists that one-level recursion
into a wrapper around the non-mirror arms (`memReadBase`/`memWriteBase`),
which is equivalent because the mirror range is disjoint from every other
arm. -/

/-- `Bus` state. `prgRomLen` records `prg_rom.len()`. -/
structure Bus where
  cpuWram : Nat → Nat
  prgRam : Nat → Nat
  prgRom : Nat → Nat
  prgRomLen : Nat
  ppu : PPU
  cycles : Nat
  joypad : Joypad

/-- `Bus::read_prg_rom`: subtract `0x8000`, mirror 16 KiB ROMs, and index
(`none` on out-of-bounds, a `Vec` indexing panic). -/
def Bus.readPrgRom (b : Bus) (addr : Nat) : Option Nat :=
  let a := addr - 0x8000
  let a2 := if b.prgRomLen = 0x4000 ∧ 0x4000 ≤ a then a % 0x4000 else a
  if a2 < b.prgRomLen then some (b.prgRom a2) else none

/-- `Bus::mem_read`, all arms except the PPU-mirror arm, in source order:
WRAM (11-bit mirror), the write-only PPU registers (panic), $2002 status
read, $2004 OAM read, $2007 data read, $4016 joypad read, PRG RAM, PRG
ROM, and the logging default arm which returns 0. -/
def Bus.memReadBase (b : Bus) (addr : Nat) : Option (Nat × Bus) :=
  if addr ≤ 0x1fff then some (b.cpuWram (addr &&& 0x7ff), b)
  else if addr = 0x2000 ∨ addr = 0x2001 ∨ addr = 0x2003 ∨ addr = 0x2005 ∨
      addr = 0x2006 ∨ addr = 0x4014 then none
  else if addr = 0x2002 then
    let (v, p) := b.ppu.readStatus
    some (v, { b with ppu := p })
  else if addr = 0x2004 then some (b.ppu.oamData b.ppu.oamAddr, b)
  else if addr = 0x2007 then
    match b.ppu.readData with
    | some (v, p) => some (v, { b with ppu := p })
    | none => none
  else if addr = 0x4016 then
    let (v, j) := b.joypad.read
    some (v, { b with joypad := j })
  else if 0x6000 ≤ addr ∧ addr ≤ 0x7fff then some (b.prgRam (addr - 0x6000), b)
  else if 0x8000 ≤ addr ∧ addr ≤ 0xffff then
    (b.readPrgRom addr).map (fun v => (v, b))
  else some (0, b)

/-- `Bus::mem_read`: the PPU-mirror arm (`addr & 0b00100000_00000111`)
folded over the non-mirror arms. -/
def Bus.memRead (b : Bus) (addr : Nat) : Option (Nat × Bus) :=
  if 0x2008 ≤ addr ∧ addr ≤ 0x3fff then b.memReadBase (addr &&& 0x2007)
  else b.memReadBase addr

/-- The OAM-DMA buffer fill in `Bus::mem_write`'s `0x4014` arm: `n`
successive `mem_read`s starting at `addr`, threading the bus, `none` as
soon as one read panics. -/
def Bus.readSeq : Bus → Nat → Nat → Option (List Nat × Bus)
  | b, _, 0 => some ([], b)
  | b, addr, n + 1 =>
    match b.memRead addr with
    | none => none
    | some (v, b2) =>
      match b2.readSeq (addr + 1) n with
      | none => none
      | some (l, b3) => some (v :: l, b3)

/-- `Bus::mem_write`, all arms except the PPU-mirror arm, in source
order. -/
def Bus.memWriteBase (b : Bus) (addr v : Nat) : Option Bus :=
  if addr ≤ 0x1fff then
    some { b with cpuWram := fun i => if i = (addr &&& 0x7ff) then v else b.cpuWram i }
  else if addr = 0x2000 then some { b with ppu := b.ppu.writeToController v }
  else if addr = 0x2001 then some { b with ppu := { b.ppu with mask := v } }
  else if addr = 0x2002 then none
  else if addr = 0x2003 then some { b with ppu := { b.ppu with oamAddr := v } }
  else if addr = 0x2004 then some { b with ppu := b.ppu.writeToOamData v }
  else if addr = 0x2005 then some { b with ppu := { b.ppu with scroll := b.ppu.scroll.write v } }
  else if addr = 0x2006 then some { b with ppu := { b.ppu with ppuAddr := b.ppu.ppuAddr.update v } }
  else if addr = 0x2007 then (b.ppu.writeToData v).map (fun p => { b with ppu := p })
  else if addr = 0x4014 then
    match b.readSeq (v <<< 8) 256 with
    | none => none
    | some (buf, b2) => some { b2 with ppu := b2.ppu.writeOamDma buf }
  else if addr = 0x4016 then some { b with joypad := b.joypad.write v }
  else if 0x6000 ≤ addr ∧ addr ≤ 0x7fff then
    some { b with prgRam := fun i => if i = addr - 0x6000 then v else b.prgRam i }
  else some b

/-- `Bus::mem_write`: the PPU-mirror arm folded over the non-mirror
arms. -/
def Bus.memWrite (b : Bus) (addr v : Nat) : Option Bus :=
  if 0x2008 ≤ addr ∧ addr ≤ 0x3fff then b.memWriteBase (addr &&& 0x2007) v
  else b.memWriteBase addr v

/-! ## Concrete states for witnesses and counterexamples -/

/-- A PPU in the state the claims' scenarios start from: everything
zeroed, `(scanline, cycles) = (0, 0)`, both latches in their reset
position, no pending NMI. -/
def ppuZero : PPU :=
  { chrRom := fun _ => 0, chrRomLen := 0x2000, chrRam := none
    vram := fun _ => 0, palette := fun _ => 0, oamData := fun _ => 0
    ctrl := 0, ppuAddr := PPUADDR.new, mirroring := Mirroring.horizontal
    mask := 0, oamAddr := 0, scroll := ⟨0, 0, false⟩, status := 0
    scanline := 0, cycles := 0, nmiInterrupt := none, internalDataBuffer := 0 }

/-- A concrete bus (zeroed 32 KiB PRG-ROM cartridge) for witnesses and
counterexamples. -/
def busZero : Bus :=
  { cpuWram := fun _ => 0, prgRam := fun _ => 0, prgRom := fun _ => 0
    prgRomLen := 0x8000, ppu := ppuZero, cycles := 7
    joypad := ⟨false, 0, 0⟩ }

/-! ## Frame iteration, and concrete states for the tick claims -/

/-- `k` repetitions of `PPU::tick n` (keeping the state, dropping the
frame-complete flag). -/
def tickIter (n : Nat) : Nat → PPU → PPU
  | 0, p => p
  | k + 1, p => tickIter n k (p.tick n).1

/-- The zeroed PPU with `PPUCTRL::GENERATE_NMI` set. -/
def ppuNmiOn : PPU := { ppuZero with ctrl := 0x80 }

/-- Total PPU cycles fed by `n` successive `tick(3)` calls: each call
executes `self.cycles += ppu_cycles` with `ppu_cycles = 3`. -/
def tick3CyclesFed (n : Nat) : Nat := 3 * n

/-! ## Branch timing (src/cpu/operations.rs, src/cpu/addressing.rs) -/

/-- `CPU::page_cross`: `(a & 0xff00) != (b & 0xff00)`. -/
def pageCross (a b : Nat) : Bool := (a &&& 0xff00) != (b &&& 0xff00)

/-- `CPU::branch`.  `base` is the program counter on entry — the operand
address, the opcode byte having already been consumed by the run loop —
and `operand` the offset byte read at `base`.  Returns the program
counter the function leaves behind (the run loop later adds
`bytes - 1 = 1`) and the number of extra `bus.tick(1)` calls consumed:
one for a taken branch plus one more when
`page_cross(base + 2, jump_addr + 1)` holds.  `jump as u16` sign-extends
the offset byte (`operand + 0xff00` when negative); `wrapping_add` is
`% 65536`. -/
def branch (condition : Bool) (base operand : Nat) : Nat × Nat :=
  if condition then
    let jump := if operand < 128 then operand else operand + 0xff00
    let jumpAddr := (base + jump) % 65536
    (jumpAddr,
     1 + (if pageCross ((base + 2) % 65536) ((jumpAddr + 1) % 65536) then 1 else 0))
  else (base, 0)

/-! ## Cartridge parsing (src/cartridge.rs) -/

/-- `Cartridge` (the parsed form). -/
structure Cartridge where
  prgRom : List Nat
  chrRom : List Nat
  mapper : Nat
  screenMirroring : Mirroring
deriving Repr, DecidableEq

/-- `INES_IDENTIFIER`. -/
def inesIdentifier : List Nat := [0x4e, 0x45, 0x53, 0x1a]

/-- `Cartridge::new`: parse a raw `.nes` byte vector.  `none` models the
indexing/slicing panics (header shorter than 8 bytes, or a payload
shorter than the sizes the header declares); the two `Err` paths keep
their source strings. -/
def Cartridge.new (raw : List Nat) : Option (Except String Cartridge) :=
  if raw.length < 4 then none
  else if raw.take 4 ≠ inesIdentifier then
    some (Except.error "File is not in iNES file format")
  else if raw.length < 8 then none
  else
    let prgRomSize := raw.getD 4 0 * 16384
    let chrRomSize := raw.getD 5 0 * 8192
    let trainer := raw.getD 6 0 &&& 0b100 == 0b100
    let fourScreen := raw.getD 6 0 &&& 0b1000 != 0
    let verticalMirroring := raw.getD 6 0 &&& 0b1 != 0
    let screenMirroring :=
      if fourScreen then Mirroring.fourScreen
      else if verticalMirroring then Mirroring.vertical
      else Mirroring.horizontal
    let mapper := (raw.getD 7 0 &&& 0xf0) ||| (raw.getD 6 0 >>> 4)
    let inesVer := (raw.getD 7 0 >>> 2) &&& 0b11
    if inesVer ≠ 0 then some (Except.error "NES2.0 format is not supported")
    else
      let prgRomStart := 16 + (if trainer then 512 else 0)
      let chrRomStart := prgRomStart + prgRomSize
      if raw.length < chrRomStart + chrRomSize then none
      else
        some (Except.ok
          { prgRom := (raw.drop prgRomStart).take prgRomSize
            chrRom := (raw.drop chrRomStart).take chrRomSize
            mapper := mapper
            screenMirroring := screenMirroring })

/-! ## Joypad read sequences (for the strobe/shift protocol) -/

/-- The joypad state after `k` successive `Joypad::read` calls. -/
def joypadAfterReads (j : Joypad) : Nat → Joypad
  | 0 => j
  | k + 1 => ((joypadAfterReads j k).read).2

/-- The value returned by the `k`-th (0-based) `Joypad::read` call. -/
def joypadNthRead (j : Joypad) (k : Nat) : Nat := ((joypadAfterReads j k).read).1

/-! ## Theorems

Every claim of the specification is settled below; helper lemmas carry no
claim ids. -/

/-- `x &&& 0x80` is nonzero exactly when bit 7 of `x` is set. -/
theorem and_128_ne_zero (x : Nat) : (x &&& 128 ≠ 0) ↔ x.testBit 7 := by
  have h := Nat.and_two_pow x 7
  norm_num at h
  rw [h]
  cases x.testBit 7 <;> simp

/-- C1: for every pair of accumulator and operand bytes and either initial
carry value, `add_to_register_a` (the common core of ADC) leaves the Carry
flag set iff the 9-bit sum of accumulator, operand and carry-in exceeds
`0xFF`, and leaves the Overflow flag set iff the sign bit (bit 7) of the
8-bit result differs from the sign of both operands while the two operands
have the same sign. -/
theorem adc_carry_overflow_rule (a d : Nat) (c : Bool)
    (ha : a < 256) (hd : d < 256) :
    ((addToRegisterA a d c).carry = true ↔
      0xff < a + d + (if c then 1 else 0)) ∧
    ((addToRegisterA a d c).overflow = true ↔
      (Nat.testBit a 7 = Nat.testBit d 7 ∧
        Nat.testBit (addToRegisterA a d c).result 7 ≠ Nat.testBit a 7)) := by
  refine ⟨by simp [addToRegisterA], ?_⟩
  have hr : (addToRegisterA a d c).result = (a + d + (if c then 1 else 0)) % 256 := rfl
  have ho : (addToRegisterA a d c).overflow =
      decide ((d ^^^ (a + d + (if c then 1 else 0)) % 256) &&&
        ((a + d + (if c then 1 else 0)) % 256 ^^^ a) &&& 0x80 ≠ 0) := rfl
  rw [hr, ho, decide_eq_true_iff, and_128_ne_zero, Nat.testBit_land, Nat.testBit_xor,
    Nat.testBit_xor]
  generalize ((a + d + (if c then 1 else 0)) % 256).testBit 7 = R
  generalize a.testBit 7 = A
  generalize d.testBit 7 = D
  revert A D R
  decide

/-- C1 witness: the rule instantiated at accumulator `0x80`, operand `0x80`,
carry-in clear — the sum is `0x100`, so Carry is set, and two negative
operands produce a non-negative result, so Overflow is set. -/
theorem adc_carry_overflow_rule_witness :
    (0x80 < 256 ∧ 0x80 < 256) ∧
    (((addToRegisterA 0x80 0x80 false).carry = true ↔
      0xff < 0x80 + 0x80 + (if false then 1 else 0)) ∧
    ((addToRegisterA 0x80 0x80 false).overflow = true ↔
      (Nat.testBit 0x80 7 = Nat.testBit 0x80 7 ∧
        Nat.testBit (addToRegisterA 0x80 0x80 false).result 7 ≠ Nat.testBit 0x80 7))) :=
  ⟨by decide, adc_carry_overflow_rule 0x80 0x80 false (by decide) (by decide)⟩

/-! ## Claims C6 and C7: the PPU address latch and the status read -/

/-- Composing a 16-bit value from a high byte shifted left and a low
byte below 256. -/
theorem shiftLeft8_or (h l : Nat) (hl : l < 256) : (h <<< 8) ||| l = 256 * h + l := by
  rw [Nat.shiftLeft_eq]
  have h2 := @Nat.mul_add_lt_is_or 8 l (by norm_num [hl]) h
  rw [show h * 2 ^ 8 = 2 ^ 8 * h by ring, ← h2]

/-- Two `PPUADDR::update` writes from a reset latch with an in-range high
byte compose `high * 256 + low` (the mirror-down step never fires because
the composed value stays at or below `0x3fff`). -/
theorem update_compose_fresh (A : PPUADDR) (hi lo : Nat) (hA : A.writeLatch = true)
    (hlo0 : A.lo < 256) (hhi : hi < 64) (hlo : lo < 256) :
    ((A.update hi).update lo).get = 256 * hi + lo := by
  obtain ⟨ahi, alo, alatch⟩ := A
  simp only at hA hlo0
  subst hA
  have e1 : (PPUADDR.update ⟨ahi, alo, true⟩ hi) = ⟨hi, alo, false⟩ := by
    unfold PPUADDR.update
    simp only [if_true]
    rw [if_neg]
    · rfl
    · show ¬ (0x3fff < (PPUADDR.get ⟨hi, alo, true⟩))
      unfold PPUADDR.get
      simp only
      rw [shiftLeft8_or hi alo hlo0]
      omega
  rw [e1]
  have e2 : (PPUADDR.update ⟨hi, alo, false⟩ lo) = ⟨hi, lo, true⟩ := by
    unfold PPUADDR.update
    simp only [if_neg, Bool.false_eq_true, not_false_iff]
    rw [if_neg]
    · rfl
    · show ¬ (0x3fff < (PPUADDR.get ⟨hi, lo, false⟩))
      unfold PPUADDR.get
      simp only
      rw [shiftLeft8_or hi lo hlo]
      omega
  rw [e2]
  unfold PPUADDR.get
  simp only
  rw [shiftLeft8_or hi lo hlo]

/-- C6 (the code violates the claim): from a fresh latch, writing `0xff`
then `0xfd` — the input of the source's own unit test
`test_ppuaddr_wraparaound` — leaves the effective address at `0x4000`,
outside 0x0000–0x3FFF.  The "mirror down" step computes
`get() & 0x4000` (which keeps only bit 14) instead of `get() & 0x3fff`,
so the claimed 14-bit invariant fails; the test expects `0x3ffd`. -/
theorem ppuaddr_update_escapes_14bit :
    ((PPUADDR.new.update 0xff).update 0xfd).get = 0x4000 ∧
    ¬ ((PPUADDR.new.update 0xff).update 0xfd).get ≤ 0x3fff := by decide

/-- C7: a status read returns the current status byte, clears (only) the
vblank-started bit, and resets the address write latch and the scroll
latch; after it, writing `0x00` then `0x01` to the address register
composes `0x0001`, and in general the next two writes compose a fresh
address `high * 256 + low` from scratch, high byte first. -/
theorem read_status_resets_latches (p : PPU) (hlo : p.ppuAddr.lo < 256) :
    (p.readStatus).1 = p.status ∧
    Nat.testBit (p.readStatus).2.status 7 = false ∧
    (∀ i, i < 8 → i ≠ 7 →
      Nat.testBit (p.readStatus).2.status i = Nat.testBit p.status i) ∧
    (p.readStatus).2.ppuAddr.writeLatch = true ∧
    (p.readStatus).2.scroll.latch = false ∧
    (((p.readStatus).2.ppuAddr.update 0x00).update 0x01).get = 0x0001 ∧
    (∀ hi lo, hi < 64 → lo < 256 →
      (((p.readStatus).2.ppuAddr.update hi).update lo).get = 256 * hi + lo) := by
  have hs : (p.readStatus).2.status = p.status &&& 127 := rfl
  have hA : (p.readStatus).2.ppuAddr = p.ppuAddr.resetWriteLatch := rfl
  refine ⟨rfl, ?_, ?_, rfl, rfl, ?_, ?_⟩
  · rw [hs, Nat.testBit_land,
      show Nat.testBit 127 7 = false from by decide, Bool.and_false]
  · intro i h1 h2
    have h127 : ∀ j, j < 8 → j ≠ 7 → Nat.testBit 127 j = true := by decide
    rw [hs, Nat.testBit_land, h127 i h1 h2, Bool.and_true]
  · rw [hA]
    have := update_compose_fresh p.ppuAddr.resetWriteLatch 0 1 rfl hlo
      (by omega) (by omega)
    rw [this]
  · intro hi lo hhi hlo2
    rw [hA]
    exact update_compose_fresh p.ppuAddr.resetWriteLatch hi lo rfl hlo hhi hlo2

/-- C7 witness: the status-read theorem applied to the concrete zeroed
PPU. -/
theorem read_status_resets_latches_witness :
    ppuZero.ppuAddr.lo < 256 ∧
    ((ppuZero.readStatus).1 = ppuZero.status ∧
    Nat.testBit (ppuZero.readStatus).2.status 7 = false ∧
    (∀ i, i < 8 → i ≠ 7 →
      Nat.testBit (ppuZero.readStatus).2.status i = Nat.testBit ppuZero.status i) ∧
    (ppuZero.readStatus).2.ppuAddr.writeLatch = true ∧
    (ppuZero.readStatus).2.scroll.latch = false ∧
    (((ppuZero.readStatus).2.ppuAddr.update 0x00).update 0x01).get = 0x0001 ∧
    (∀ hi lo, hi < 64 → lo < 256 →
      (((ppuZero.readStatus).2.ppuAddr.update hi).update lo).get = 256 * hi + lo)) :=
  ⟨by decide, read_status_resets_latches ppuZero (by decide)⟩

/-- One `tick(341)` from the start of a scanline that neither enters 241
nor wraps: only the scanline counter advances. -/
theorem tick341_step_plain (p : PPU) (h0 : p.cycles = 0)
    (hne : p.scanline + 1 ≠ 241) (hlt : p.scanline + 1 < 262) :
    (p.tick 341).1 = { p with cycles := 0, scanline := p.scanline + 1 } := by
  simp only [PPU.tick, h0]
  norm_num
  rw [Nat.mod_eq_of_lt (show p.scanline + 1 < 65536 by omega)]
  rw [if_neg hne, if_neg (show ¬ (262 ≤ p.scanline + 1) by omega)]


/-- One `tick(341)` from the start of scanline 240: vblank starts and,
with GENERATE_NMI on, the NMI flag is raised. -/
theorem tick341_step_241 (p : PPU) (h0 : p.cycles = 0) (hs : p.scanline = 240) :
    (p.tick 341).1 = { p with
      cycles := 0
      scanline := 241
      status := setFlag p.status statusVblankStarted true
      nmiInterrupt :=
        if containsFlag p.ctrl ctrlGenerateNmi then some 1 else p.nmiInterrupt } := by
  simp only [PPU.tick, h0, hs]
  norm_num

/-- One `tick(341)` from the start of scanline 261: the frame wraps,
clearing SPRITE_ZERO_HIT, VBLANK_STARTED and the NMI flag. -/
theorem tick341_step_262 (p : PPU) (h0 : p.cycles = 0) (hs : p.scanline = 261) :
    (p.tick 341).1 = { p with
      cycles := 0
      scanline := 0
      status := setFlag (setFlag p.status statusSpriteZeroHit false)
        statusVblankStarted false
      nmiInterrupt := none } := by
  simp only [PPU.tick, h0, hs]
  norm_num

/-- Iterated ticks compose. -/
theorem tickIter_add (n a b : Nat) (p : PPU) :
    tickIter n (a + b) p = tickIter n a (tickIter n b p) := by
  induction b generalizing p with
  | zero => rfl
  | succ b ih =>
    rw [show a + (b + 1) = (a + b) + 1 by omega]
    rw [show tickIter n ((a + b) + 1) p = tickIter n (a + b) (p.tick n).1 from rfl]
    rw [ih]
    rfl

/-- Scanline-at-a-time run below scanline 241: only the counter moves. -/
theorem tickIter_run (k : Nat) (p : PPU) (h0 : p.cycles = 0)
    (hk : p.scanline + k ≤ 240) :
    tickIter 341 k p = { p with cycles := 0, scanline := p.scanline + k } := by
  induction k generalizing p with
  | zero =>
    obtain ⟨c1, c2, c3, c4, c5, c6, c7, c8, c9, c10, c11, c12, st, sl, cy, nm, ib⟩ := p
    simp only at h0
    subst h0
    simp [tickIter]
  | succ k ih =>
    rw [show tickIter 341 (k + 1) p = tickIter 341 k (p.tick 341).1 from rfl]
    rw [tick341_step_plain p h0 (by omega) (by omega)]
    rw [ih _ rfl (by simp only; omega)]
    simp only
    have e : p.scanline + 1 + k = p.scanline + (k + 1) := by omega
    rw [e]

/-- Scanline-at-a-time run inside vblank (241..261): only the counter
moves. -/
theorem tickIter_run_vblank (k : Nat) (p : PPU) (h0 : p.cycles = 0)
    (h1 : 241 ≤ p.scanline) (hk : p.scanline + k ≤ 261) :
    tickIter 341 k p = { p with cycles := 0, scanline := p.scanline + k } := by
  induction k generalizing p with
  | zero =>
    obtain ⟨c1, c2, c3, c4, c5, c6, c7, c8, c9, c10, c11, c12, st, sl, cy, nm, ib⟩ := p
    simp only at h0
    subst h0
    simp [tickIter]
  | succ k ih =>
    rw [show tickIter 341 (k + 1) p = tickIter 341 k (p.tick 341).1 from rfl]
    rw [tick341_step_plain p h0 (by omega) (by omega)]
    rw [ih _ rfl (by simp only; omega) (by simp only; omega)]
    simp only
    have e : p.scanline + 1 + k = p.scanline + (k + 1) := by omega
    rw [e]

/-- A single iteration is a single tick. -/
theorem tickIter_one (q : PPU) : tickIter 341 1 q = (q.tick 341).1 := rfl

/-- 241 scanline-steps from a frame start: vblank has just started. -/
theorem tickIter_241 (p : PPU) (hc : p.cycles = 0) (hs : p.scanline = 0) :
    tickIter 341 241 p = { p with
      cycles := 0
      scanline := 241
      status := setFlag p.status statusVblankStarted true
      nmiInterrupt :=
        if containsFlag p.ctrl ctrlGenerateNmi then some 1 else p.nmiInterrupt } := by
  rw [show (241 : Nat) = 1 + 240 by omega, tickIter_add,
    tickIter_run 240 p hc (by omega), tickIter_one]
  rw [tick341_step_241 _ rfl (by simp only; omega)]

/-- 261 scanline-steps from a frame start: the last vblank scanline. -/
theorem tickIter_261 (p : PPU) (hc : p.cycles = 0) (hs : p.scanline = 0) :
    tickIter 341 261 p = { p with
      cycles := 0
      scanline := 261
      status := setFlag p.status statusVblankStarted true
      nmiInterrupt :=
        if containsFlag p.ctrl ctrlGenerateNmi then some 1 else p.nmiInterrupt } := by
  rw [show (261 : Nat) = 20 + 241 by omega, tickIter_add, tickIter_241 p hc hs]
  rw [tickIter_run_vblank 20 _ rfl (by simp only; omega) (by simp only; omega)]

/-- C2 (amended): from `(scanline, cycles) = (0, 0)`, feeding the PPU
exactly `341 * 262` cycles — here as 262 calls of `tick(341)`, one
scanline per call — returns `(scanline, cycles)` to `(0, 0)`, clears the
vblank-started status bit (bit 7) and clears the NMI flag, whatever the
other state was: one full frame is a closed cycle.  (Fixed `tick(3)`
calls alone cannot feed exactly `341 * 262` cycles, see the
counterexample theorem.) -/
theorem ppu_full_frame_closed (p : PPU) (hc : p.cycles = 0) (hs : p.scanline = 0) :
    (tickIter 341 262 p).scanline = 0 ∧ (tickIter 341 262 p).cycles = 0 ∧
    Nat.testBit (tickIter 341 262 p).status 7 = false ∧
    (tickIter 341 262 p).nmiInterrupt = none := by
  rw [show (262 : Nat) = 1 + 261 by omega, tickIter_add, tickIter_261 p hc hs,
    tickIter_one]
  rw [tick341_step_262 _ rfl (by simp only)]
  refine ⟨rfl, rfl, ?_, rfl⟩
  simp only [setFlag, if_true, Bool.false_eq_true, if_false]
  rw [show ((0xff : Nat) ^^^ statusVblankStarted) = 127 from by decide]
  rw [Nat.testBit_land, show Nat.testBit 127 7 = false from by decide, Bool.and_false]


/-- Characterisation of the NMI flag across one `tick` call, for any
in-range state: it is set to `some 1` exactly on the step entering
scanline 241 with GENERATE_NMI on, cleared on the frame wrap, and
untouched otherwise. -/
theorem tick_nmi_char (p : PPU) (n : Nat)
    (hs : p.scanline < 262) (hc : p.cycles < 341) (hn : n ≤ 2 ^ 32) :
    (p.tick n).1.nmiInterrupt =
      if 341 ≤ p.cycles + n then
        (if p.scanline + 1 = 241 then
          (if containsFlag p.ctrl ctrlGenerateNmi then some 1 else p.nmiInterrupt)
         else if p.scanline = 261 then none else p.nmiInterrupt)
      else p.nmiInterrupt := by
  have hmod : (p.cycles + n) % 2 ^ 64 = p.cycles + n := Nat.mod_eq_of_lt (by
    have : (2 : Nat) ^ 32 < 2 ^ 64 := by norm_num
    omega)
  have hmod2 : (p.scanline + 1) % 65536 = p.scanline + 1 :=
    Nat.mod_eq_of_lt (by omega)
  unfold PPU.tick
  simp only [hmod, hmod2]
  split
  · rename_i h1
    split
    · rename_i h2
      split
      · rename_i h3
        rw [if_neg (show ¬ (262 : Nat) ≤ p.scanline + 1 by omega)]
        try simp only [if_pos h1, if_pos h2, if_pos h3]
      · rename_i h3
        rw [if_neg (show ¬ (262 : Nat) ≤ p.scanline + 1 by omega)]
        try simp only [if_pos h1, if_pos h2, if_neg h3]
    · rename_i h2
      split
      · rename_i h3
        try simp only at h3
        simp only [if_pos h1, if_neg h2, if_pos (show p.scanline = 261 by omega)]
      · rename_i h3
        try simp only at h3
        simp only [if_pos h1, if_neg h2, if_neg (show ¬ p.scanline = 261 by omega)]
  · rename_i h1
    simp only [if_neg h1]


set_option maxRecDepth 200000 in
set_option maxHeartbeats 4000000 in
/-- Over one concrete 262-scanline frame with GENERATE_NMI on, the NMI
flag becomes newly set on exactly one step, namely the transition into
scanline 241. -/
theorem nmi_once_per_frame_concrete :
    ((List.range 262).countP fun k =>
      ((tickIter 341 (k + 1) ppuNmiOn).nmiInterrupt == some 1) &&
      !((tickIter 341 k ppuNmiOn).nmiInterrupt == some 1)) = 1 ∧
    (tickIter 341 241 ppuNmiOn).nmiInterrupt = some 1 ∧
    (tickIter 341 240 ppuNmiOn).nmiInterrupt = none := by
  refine ⟨?_, by decide, by decide⟩
  decide


/-- C3: with GENERATE_NMI clear, ticking never sets the NMI flag (it is
preserved or cleared); with GENERATE_NMI set, a tick newly sets the flag
iff it is the step where the scanline counter transitions into 241; and
over a concrete full frame the flag becomes set exactly once, at that
transition. -/
theorem tick_nmi_rule (p : PPU) (n : Nat)
    (hs : p.scanline < 262) (hc : p.cycles < 341) (hn : n ≤ 2 ^ 32) :
    (containsFlag p.ctrl ctrlGenerateNmi = false →
      (p.tick n).1.nmiInterrupt = p.nmiInterrupt ∨ (p.tick n).1.nmiInterrupt = none) ∧
    (containsFlag p.ctrl ctrlGenerateNmi = true →
      (((p.tick n).1.nmiInterrupt = some 1 ∧ p.nmiInterrupt ≠ some 1) ↔
        (341 ≤ p.cycles + n ∧ p.scanline = 240 ∧ p.nmiInterrupt ≠ some 1))) ∧
    ((List.range 262).countP (fun k =>
      ((tickIter 341 (k + 1) ppuNmiOn).nmiInterrupt == some 1) &&
      !((tickIter 341 k ppuNmiOn).nmiInterrupt == some 1)) = 1 ∧
     (tickIter 341 241 ppuNmiOn).nmiInterrupt = some 1 ∧
     (tickIter 341 240 ppuNmiOn).nmiInterrupt = none) := by
  refine ⟨?_, ?_, nmi_once_per_frame_concrete⟩
  · intro hoff
    rw [tick_nmi_char p n hs hc hn]
    simp only [hoff, Bool.false_eq_true, if_false]
    split_ifs <;> simp
  · intro hon
    rw [tick_nmi_char p n hs hc hn]
    simp only [hon, if_true]
    split_ifs with h1 h2 h3
    · constructor
      · rintro ⟨h4, h5⟩
        exact ⟨h1, by omega, h5⟩
      · rintro ⟨h4, h5, h6⟩
        exact ⟨rfl, h6⟩
    · constructor
      · rintro ⟨h4, h5⟩
        exact absurd h4 (by simp)
      · rintro ⟨h4, h5, h6⟩
        omega
    · constructor
      · rintro ⟨h4, h5⟩
        exact absurd h4 h5
      · rintro ⟨h4, h5, h6⟩
        exact absurd (show p.scanline + 1 = 241 by omega) h2
    · constructor
      · rintro ⟨h4, h5⟩
        exact absurd h4 h5
      · rintro ⟨h4, h5, h6⟩
        exact absurd h4 h1


/-- C2 counterexample: the claim's schedule is impossible — no number of
`tick(3)` calls feeds exactly `341 * 262` PPU cycles, because `341 * 262`
is not divisible by 3. -/
theorem tick3_cannot_feed_exact_frame :
    ¬ ∃ n : Nat, tick3CyclesFed n = 341 * 262 := by
  rintro ⟨n, h⟩
  unfold tick3CyclesFed at h
  omega

/-- C2 witness: the frame-closure theorem applied to a concrete start
state with vblank, sprite-zero-hit and a pending NMI all set. -/
theorem ppu_full_frame_closed_witness :
    (({ ppuZero with status := 0xe0, nmiInterrupt := some 1, ctrl := 0x80 } : PPU).cycles = 0 ∧
     ({ ppuZero with status := 0xe0, nmiInterrupt := some 1, ctrl := 0x80 } : PPU).scanline = 0) ∧
    ((tickIter 341 262 { ppuZero with status := 0xe0, nmiInterrupt := some 1, ctrl := 0x80 }).scanline = 0 ∧
     (tickIter 341 262 { ppuZero with status := 0xe0, nmiInterrupt := some 1, ctrl := 0x80 }).cycles = 0 ∧
     Nat.testBit (tickIter 341 262 { ppuZero with status := 0xe0, nmiInterrupt := some 1, ctrl := 0x80 }).status 7 = false ∧
     (tickIter 341 262 { ppuZero with status := 0xe0, nmiInterrupt := some 1, ctrl := 0x80 }).nmiInterrupt = none) :=
  ⟨⟨rfl, rfl⟩, ppu_full_frame_closed _ rfl rfl⟩

/-- C3 witness: the NMI rule applied at the last cycle of scanline 240
with GENERATE_NMI on and no pending NMI — the tick crosses into scanline
241 and raises the NMI flag. -/
theorem tick_nmi_rule_witness :
    (({ ppuNmiOn with scanline := 240, cycles := 340 } : PPU).scanline < 262 ∧
     ({ ppuNmiOn with scanline := 240, cycles := 340 } : PPU).cycles < 341 ∧
     (3 : Nat) ≤ 2 ^ 32) ∧
    ((containsFlag ({ ppuNmiOn with scanline := 240, cycles := 340 } : PPU).ctrl ctrlGenerateNmi = false →
      (({ ppuNmiOn with scanline := 240, cycles := 340 } : PPU).tick 3).1.nmiInterrupt =
        ({ ppuNmiOn with scanline := 240, cycles := 340 } : PPU).nmiInterrupt ∨
      (({ ppuNmiOn with scanline := 240, cycles := 340 } : PPU).tick 3).1.nmiInterrupt = none) ∧
    (containsFlag ({ ppuNmiOn with scanline := 240, cycles := 340 } : PPU).ctrl ctrlGenerateNmi = true →
      (((({ ppuNmiOn with scanline := 240, cycles := 340 } : PPU).tick 3).1.nmiInterrupt = some 1 ∧
        ({ ppuNmiOn with scanline := 240, cycles := 340 } : PPU).nmiInterrupt ≠ some 1) ↔
        (341 ≤ ({ ppuNmiOn with scanline := 240, cycles := 340 } : PPU).cycles + 3 ∧
         ({ ppuNmiOn with scanline := 240, cycles := 340 } : PPU).scanline = 240 ∧
         ({ ppuNmiOn with scanline := 240, cycles := 340 } : PPU).nmiInterrupt ≠ some 1))) ∧
    ((List.range 262).countP (fun k =>
      ((tickIter 341 (k + 1) ppuNmiOn).nmiInterrupt == some 1) &&
      !((tickIter 341 k ppuNmiOn).nmiInterrupt == some 1)) = 1 ∧
     (tickIter 341 241 ppuNmiOn).nmiInterrupt = some 1 ∧
     (tickIter 341 240 ppuNmiOn).nmiInterrupt = none)) :=
  ⟨⟨by decide, by decide, by norm_num⟩,
   tick_nmi_rule { ppuNmiOn with scanline := 240, cycles := 340 } 3
     (by decide) (by decide) (by norm_num)⟩


/-- C4 (the code deviates at an off-by-one corner): a branch opcode at
`0x00FD` enters `branch` with PC = `0x00FE` (the operand address) and
offset byte `0x00`.  The final target is `0x00FF`, the same 256-byte page
as the following instruction at `0x00FF`, so the claim requires exactly
one extra cycle; the code consumes two, because it compares the page of
`base + 2 = 0x0100` (one past the following instruction) with the
target.  The not-taken case consumes no extra cycles, as claimed. -/
theorem branch_page_cross_off_by_one :
    (branch true 0x00fe 0x00).2 = 2 ∧
    ((branch true 0x00fe 0x00).1 + 1) % 65536 = 0x00ff ∧
    pageCross ((0x00fe + 1) % 65536) (((branch true 0x00fe 0x00).1 + 1) % 65536) = false ∧
    (branch false 0x00fe 0x00).2 = 0 := by decide

/-- The NES2.0 error path of `Cartridge::new`: with the iNES magic in
place and nonzero version bits in byte 7, parsing stops with the
"NES2.0 format is not supported" error. -/
theorem cartridge_new_nes2_error (raw : List Nat) (hlen : 8 ≤ raw.length)
    (hmagic : raw.take 4 = inesIdentifier)
    (hver : (raw.getD 7 0 >>> 2) &&& 0b11 ≠ 0) :
    Cartridge.new raw = some (Except.error "NES2.0 format is not supported") := by
  unfold Cartridge.new
  rw [if_neg (by omega), if_neg (by simp [hmagic]), if_neg (by omega), if_pos hver]

/-- C8: any input whose first four bytes are the iNES magic and whose
byte 7 has nonzero bits 2-3 is rejected with the "unsupported format"
error, and the outcome depends only on the 8 header bytes read so far —
no PRG/CHR payload byte is consulted on this path. -/
theorem nes2_header_rejected (raw : List Nat) (hlen : 8 ≤ raw.length)
    (hmagic : raw.take 4 = inesIdentifier)
    (hver : (raw.getD 7 0 >>> 2) &&& 0b11 ≠ 0) :
    Cartridge.new raw = some (Except.error "NES2.0 format is not supported") ∧
    (∀ raw2 : List Nat, 8 ≤ raw2.length → raw2.take 8 = raw.take 8 →
      Cartridge.new raw2 = Cartridge.new raw) := by
  have hd7 : ∀ (l1 l2 : List Nat), l1.take 8 = l2.take 8 → 8 ≤ l1.length →
      ∀ i, i < 8 → l1.getD i 0 = l2.getD i 0 := by
    intro l1 l2 h hl i hi
    have h1 : (l1.take 8)[i]? = l1[i]? := List.getElem?_take_of_lt hi
    have h2 : (l2.take 8)[i]? = l2[i]? := List.getElem?_take_of_lt hi
    simp only [List.getD_eq_getElem?_getD, ← h1, ← h2, h]
  refine ⟨cartridge_new_nes2_error raw hlen hmagic hver, ?_⟩
  intro raw2 h1 h2
  have hmagic2 : raw2.take 4 = inesIdentifier := by
    have e1 : raw2.take 4 = (raw2.take 8).take 4 := by
      rw [List.take_take]
      norm_num
    rw [e1, h2, List.take_take]
    norm_num
    exact hmagic
  have hver2 : (raw2.getD 7 0 >>> 2) &&& 0b11 ≠ 0 := by
    rw [hd7 raw2 raw h2 h1 7 (by omega)]
    exact hver
  rw [cartridge_new_nes2_error raw2 h1 hmagic2 hver2,
    cartridge_new_nes2_error raw hlen hmagic hver]


/-- C8 witness: a concrete 8-byte header with the iNES magic and version
bits `0b10` in byte 7. -/
theorem nes2_header_rejected_witness :
    (8 ≤ ([0x4e, 0x45, 0x53, 0x1a, 2, 1, 0x31, 0x08] : List Nat).length ∧
     ([0x4e, 0x45, 0x53, 0x1a, 2, 1, 0x31, 0x08] : List Nat).take 4 = inesIdentifier ∧
     (([0x4e, 0x45, 0x53, 0x1a, 2, 1, 0x31, 0x08] : List Nat).getD 7 0 >>> 2) &&& 0b11 ≠ 0) ∧
    (Cartridge.new [0x4e, 0x45, 0x53, 0x1a, 2, 1, 0x31, 0x08] =
      some (Except.error "NES2.0 format is not supported") ∧
     (∀ raw2 : List Nat, 8 ≤ raw2.length →
        raw2.take 8 = ([0x4e, 0x45, 0x53, 0x1a, 2, 1, 0x31, 0x08] : List Nat).take 8 →
        Cartridge.new raw2 = Cartridge.new [0x4e, 0x45, 0x53, 0x1a, 2, 1, 0x31, 0x08])) :=
  ⟨⟨by decide, by decide, by decide⟩,
   nes2_header_rejected _ (by decide) (by decide) (by decide)⟩

/-- Selecting one bit by mask-and-shift equals shift-then-mask. -/
theorem and_shift_bit (x i : Nat) : (x &&& (1 <<< i)) >>> i = (x >>> i) &&& 1 := by
  rw [Nat.one_shiftLeft, Nat.and_two_pow, Nat.shiftRight_eq_div_pow,
    Nat.shiftRight_eq_div_pow, Nat.and_one_is_mod,
    Nat.mul_div_cancel _ (Nat.pos_pow_of_pos i (by omega)),
    Nat.toNat_testBit]

/-- Joypad reads compose. -/
theorem joypadAfterReads_add (j : Joypad) (a b : Nat) :
    joypadAfterReads j (a + b) = joypadAfterReads (joypadAfterReads j a) b := by
  induction b with
  | zero => rfl
  | succ b ih =>
    rw [show a + (b + 1) = (a + b) + 1 by omega]
    rw [show joypadAfterReads j ((a + b) + 1) = ((joypadAfterReads j (a + b)).read).2 from rfl]
    rw [ih]
    rfl

/-- With strobe low, each of the first 8 reads advances the cursor by
one. -/
theorem joypadAfterReads_low (bs k : Nat) (hk : k ≤ 8) :
    joypadAfterReads ⟨false, 0, bs⟩ k = ⟨false, k, bs⟩ := by
  induction k with
  | zero => rfl
  | succ k ih =>
    rw [show joypadAfterReads ⟨false, 0, bs⟩ (k + 1)
        = ((joypadAfterReads ⟨false, 0, bs⟩ k).read).2 from rfl]
    rw [ih (by omega)]
    unfold Joypad.read
    rw [if_neg (show ¬ 7 < k by omega)]
    simp only [Bool.not_false, Bool.true_and]
    rw [if_pos (by simp only [decide_eq_true_eq]; omega)]

/-- Past the 8th read the state is a fixpoint. -/
theorem joypadAfterReads_stuck (bs m : Nat) :
    joypadAfterReads ⟨false, 8, bs⟩ m = ⟨false, 8, bs⟩ := by
  induction m with
  | zero => rfl
  | succ m ih =>
    rw [show joypadAfterReads ⟨false, 8, bs⟩ (m + 1)
        = ((joypadAfterReads ⟨false, 8, bs⟩ m).read).2 from rfl]
    rw [ih]
    rfl

/-- C9: writing a byte with bit 0 set to the joypad resets the read
cursor (and raises strobe); after strobe is dropped (write 1 then write
0), the i-th read returns bit i of the button bitmask for i = 0..7 and
advances the cursor, and every read past the 8th returns 1 (the cursor
stays at 8 until a strobe write resets it); a bus read of $4016 is
exactly a joypad read. -/
theorem joypad_strobe_protocol (j : Joypad) (d : Nat) (hd : d &&& 1 = 1) :
    ((j.write d).buttonIndex = 0 ∧ (j.write d).strobe = true) ∧
    (∀ i, i < 8 →
      joypadNthRead ((j.write 1).write 0) i = (j.buttonStatus >>> i) &&& 1) ∧
    (∀ m, 8 ≤ m → joypadNthRead ((j.write 1).write 0) m = 1) ∧
    (∀ b : Bus, (b.memRead 0x4016).map Prod.fst = some ((b.joypad.read).1)) := by
  have hj0 : (j.write 1).write 0 = (⟨false, 0, j.buttonStatus⟩ : Joypad) := rfl
  refine ⟨⟨?_, ?_⟩, ?_, ?_, fun b => rfl⟩
  · unfold Joypad.write
    simp only [hd]
    rfl
  · unfold Joypad.write
    simp only [hd]
    rfl
  · intro i hi
    unfold joypadNthRead
    rw [hj0, joypadAfterReads_low j.buttonStatus i (by omega)]
    unfold Joypad.read
    rw [if_neg (show ¬ 7 < i by omega)]
    simp only [Bool.not_false, Bool.true_and]
    rw [if_pos (by simp only [decide_eq_true_eq]; omega)]
    simp only
    exact and_shift_bit j.buttonStatus i
  · intro m hm
    unfold joypadNthRead
    rw [hj0, show m = 8 + (m - 8) by omega, joypadAfterReads_add,
      joypadAfterReads_low j.buttonStatus 8 (by omega),
      joypadAfterReads_stuck]
    rfl

/-- C9 witness: the protocol applied to a concrete joypad holding the
bitmask `0xA5` and the strobe byte `1`. -/
theorem joypad_strobe_protocol_witness :
    ((1 : Nat) &&& 1 = 1) ∧
    ((((⟨false, 0, 0xa5⟩ : Joypad).write 1).buttonIndex = 0 ∧
      ((⟨false, 0, 0xa5⟩ : Joypad).write 1).strobe = true) ∧
    (∀ i, i < 8 →
      joypadNthRead (((⟨false, 0, 0xa5⟩ : Joypad).write 1).write 0) i =
        ((0xa5 : Nat) >>> i) &&& 1) ∧
    (∀ m, 8 ≤ m →
      joypadNthRead (((⟨false, 0, 0xa5⟩ : Joypad).write 1).write 0) m = 1) ∧
    (∀ b : Bus, (b.memRead 0x4016).map Prod.fst = some ((b.joypad.read).1))) :=
  ⟨by decide, joypad_strobe_protocol ⟨false, 0, 0xa5⟩ 1 (by decide)⟩


/-- A bus read from anywhere in the 0x0000-0x1FFF window after a WRAM
write to `a` returns the written byte whenever the read address mirrors
down (11-bit mask) to `a`. -/
theorem wram_read_after_write (b : Bus) (a v r : Nat) (ha : a < 0x800)
    (hr : r ≤ 0x1fff) (hmir : r % 0x800 = a) :
    ((b.memWrite a v).bind (fun b2 => (b2.memRead r).map Prod.fst)) = some v := by
  have hmask : (0x7ff : Nat) = 2 ^ 11 - 1 := by norm_num
  have hwa : a &&& 0x7ff = a := by
    rw [hmask, Nat.and_pow_two_sub_one_eq_mod]
    omega
  have hra : r &&& 0x7ff = a := by
    rw [hmask, Nat.and_pow_two_sub_one_eq_mod]
    omega
  unfold Bus.memWrite
  rw [if_neg (by omega)]
  unfold Bus.memWriteBase
  rw [if_pos (show a ≤ 0x1fff by omega)]
  rw [Option.some_bind]
  unfold Bus.memRead
  rw [if_neg (by omega)]
  unfold Bus.memReadBase
  rw [if_pos hr]
  rw [hra, hwa]
  simp

/-- C5 counterexample: the claim fails already at `a = 0x0800` — the
fourth read address `a + 0x1800 = 0x2000` leaves the WRAM window and
hits the write-only PPU control register, where `mem_read` panics
instead of returning the written byte. -/
theorem wram_mirror_escapes_window :
    ((busZero.memWrite 0x0800 5).bind
      (fun b2 => (b2.memRead (0x0800 + 0x1800)).map Prod.fst)) = none := rfl

/-- C5 (amended): for any address `a` in 0x0000-0x07FF and any byte `v`,
`write(a, v)` followed by reads of `a`, `a + 0x0800`, `a + 0x1000` and
`a + 0x1800` — all four inside the 0x0000-0x1FFF window — returns `v`
every time (working-RAM mirroring). -/
theorem wram_mirror_reads (b : Bus) (a v : Nat) (ha : a < 0x800) :
    ((b.memWrite a v).bind (fun b2 => (b2.memRead a).map Prod.fst)) = some v ∧
    ((b.memWrite a v).bind (fun b2 => (b2.memRead (a + 0x800)).map Prod.fst)) = some v ∧
    ((b.memWrite a v).bind (fun b2 => (b2.memRead (a + 0x1000)).map Prod.fst)) = some v ∧
    ((b.memWrite a v).bind (fun b2 => (b2.memRead (a + 0x1800)).map Prod.fst)) = some v :=
  ⟨wram_read_after_write b a v a ha (by omega) (by omega),
   wram_read_after_write b a v (a + 0x800) ha (by omega) (by omega),
   wram_read_after_write b a v (a + 0x1000) ha (by omega) (by omega),
   wram_read_after_write b a v (a + 0x1800) ha (by omega) (by omega)⟩

/-- C5 witness: the mirroring theorem at `a = 0x123`, `v = 77` on the
concrete bus. -/
theorem wram_mirror_reads_witness :
    ((0x123 : Nat) < 0x800) ∧
    (((busZero.memWrite 0x123 77).bind
       (fun b2 => (b2.memRead 0x123).map Prod.fst)) = some 77 ∧
     ((busZero.memWrite 0x123 77).bind
       (fun b2 => (b2.memRead (0x123 + 0x800)).map Prod.fst)) = some 77 ∧
     ((busZero.memWrite 0x123 77).bind
       (fun b2 => (b2.memRead (0x123 + 0x1000)).map Prod.fst)) = some 77 ∧
     ((busZero.memWrite 0x123 77).bind
       (fun b2 => (b2.memRead (0x123 + 0x1800)).map Prod.fst)) = some 77) :=
  ⟨by decide, wram_mirror_reads busZero 0x123 77 (by decide)⟩


/-- Positions of OAM not hit by the DMA copy loop keep their bytes. -/
theorem writeOamDma_untouched (xs : List Nat) (j : Nat) :
    ∀ q : PPU, q.oamAddr < 256 → (∀ m, m < xs.length → j ≠ (q.oamAddr + m) % 256) →
    (q.writeOamDma xs).oamData j = q.oamData j := by
  induction xs with
  | nil =>
    intro q hq h
    rfl
  | cons x xs ih =>
    intro q hq h
    have hq2 : ((q.oamAddr + 1) % 256) < 256 := Nat.mod_lt _ (by omega)
    have h2 : ∀ m, m < xs.length → j ≠ (((q.oamAddr + 1) % 256) + m) % 256 := by
      intro m hm
      have h3 := h (m + 1) (by simp only [List.length_cons]; omega)
      rw [Nat.mod_add_mod, show q.oamAddr + 1 + m = q.oamAddr + (m + 1) by omega]
      exact h3
    rw [show q.writeOamDma (x :: xs) = PPU.writeOamDma { q with
        oamData := fun i => if i = q.oamAddr then x else q.oamData i
        oamAddr := (q.oamAddr + 1) % 256 } xs from rfl]
    rw [ih _ hq2 h2]
    have hne : j ≠ q.oamAddr := by
      have h0 := h 0 (by simp only [List.length_cons]; omega)
      rwa [Nat.add_zero, Nat.mod_eq_of_lt hq] at h0
    simp only [if_neg hne]

/-- The DMA copy loop: bytes land at consecutive wrapped positions from
the entry pointer, the pointer advances by the list length (mod 256),
and no other PPU field changes. -/
theorem writeOamDma_spec (xs : List Nat) :
    ∀ q : PPU, q.oamAddr < 256 → xs.length ≤ 256 →
    ((q.writeOamDma xs).oamAddr = (q.oamAddr + xs.length) % 256 ∧
     (∀ i, i < xs.length →
       (q.writeOamDma xs).oamData ((q.oamAddr + i) % 256) = xs.getD i 0) ∧
     (q.writeOamDma xs) = { q with
       oamData := (q.writeOamDma xs).oamData
       oamAddr := (q.writeOamDma xs).oamAddr }) := by
  induction xs with
  | nil =>
    intro q hq hlen
    refine ⟨?_, ?_, rfl⟩
    · show q.oamAddr = (q.oamAddr + List.length []) % 256
      simp only [List.length_nil, Nat.add_zero]
      exact (Nat.mod_eq_of_lt hq).symm
    · intro i hi
      simp at hi
  | cons x xs ih =>
    intro q hq hlen
    have hq2 : ((q.oamAddr + 1) % 256) < 256 := Nat.mod_lt _ (by omega)
    have hlen2 : xs.length ≤ 256 := by
      simp only [List.length_cons] at hlen
      omega
    have hstep : q.writeOamDma (x :: xs) = PPU.writeOamDma { q with
        oamData := fun i => if i = q.oamAddr then x else q.oamData i
        oamAddr := (q.oamAddr + 1) % 256 } xs := rfl
    obtain ⟨ihA, ihV, ihF⟩ := ih { q with
        oamData := fun i => if i = q.oamAddr then x else q.oamData i
        oamAddr := (q.oamAddr + 1) % 256 } hq2 hlen2
    refine ⟨?_, ?_, ?_⟩
    · rw [hstep, ihA]
      have e : ({ q with
          oamData := fun i => if i = q.oamAddr then x else q.oamData i
          oamAddr := (q.oamAddr + 1) % 256 } : PPU).oamAddr = (q.oamAddr + 1) % 256 := rfl
      rw [e, Nat.mod_add_mod, List.length_cons,
        show q.oamAddr + 1 + xs.length = q.oamAddr + (xs.length + 1) by omega]
    · intro i hi
      match i with
      | 0 =>
        have hp : (q.oamAddr + 0) % 256 = q.oamAddr := by omega
        rw [hstep, hp]
        rw [writeOamDma_untouched xs q.oamAddr _ hq2 ?notouch]
        · simp only [if_pos rfl]
          rfl
        · intro m hm
          simp only [Nat.mod_add_mod]
          have hlen3 : xs.length ≤ 255 := by
            simp only [List.length_cons] at hlen
            omega
          omega
      | i + 1 =>
        rw [hstep]
        have hpos : (q.oamAddr + (i + 1)) % 256 = (((q.oamAddr + 1) % 256) + i) % 256 := by
          rw [Nat.mod_add_mod, show q.oamAddr + 1 + i = q.oamAddr + (i + 1) by omega]
        rw [hpos]
        have hi2 : i < xs.length := by
          simp only [List.length_cons] at hi
          omega
        rw [ihV i hi2]
        rfl
    · rw [hstep]
      exact ihF

/-- A successful `readSeq` returns exactly as many bytes as requested. -/
theorem readSeq_length (n : Nat) : ∀ (b : Bus) (addr : Nat) (buf : List Nat) (b2 : Bus),
    b.readSeq addr n = some (buf, b2) → buf.length = n := by
  induction n with
  | zero =>
    intro b addr buf b2 h
    simp only [Bus.readSeq, Option.some.injEq, Prod.mk.injEq] at h
    rw [← h.1]
    rfl
  | succ n ih =>
    intro b addr buf b2 h
    simp only [Bus.readSeq] at h
    split at h
    · exact absurd h (by simp)
    · rename_i v b3 hm
      split at h
      · exact absurd h (by simp)
      · rename_i l b4 hs
        simp only [Option.some.injEq, Prod.mk.injEq] at h
        rw [← h.1]
        simp only [List.length_cons, ih _ _ _ _ hs]

set_option maxRecDepth 20000 in
/-- C10 counterexample: the claim fails already at page `0x20` — the DMA
buffer fill reads bus address `0x2000`, a write-only PPU register, where
`mem_read` panics; sprite memory is never overwritten. -/
theorem oam_dma_page_0x20_panics :
    Bus.memWrite busZero 0x4014 0x20 = none := rfl

/-- C10 (amended): for every page byte and initial OAM pointer such that
the 256 bus reads of the page succeed, a bus write of the page byte to
$4014 replaces all 256 bytes of sprite memory with the page's bytes,
placed starting at the current pointer with wraparound; the pointer ends
where it started (256 wrapping increments), and the copy loop changes no
other PPU state. -/
theorem oam_dma_spec (b : Bus) (page : Nat) (buf : List Nat) (b2 : Bus)
    (h : b.readSeq (page <<< 8) 256 = some (buf, b2))
    (hoam : b2.ppu.oamAddr < 256) :
    Bus.memWrite b 0x4014 page = some { b2 with ppu := b2.ppu.writeOamDma buf } ∧
    buf.length = 256 ∧
    (b2.ppu.writeOamDma buf).oamAddr = b2.ppu.oamAddr ∧
    (∀ i, i < 256 →
      (b2.ppu.writeOamDma buf).oamData ((b2.ppu.oamAddr + i) % 256) = buf.getD i 0) ∧
    (b2.ppu.writeOamDma buf) = { b2.ppu with
      oamData := (b2.ppu.writeOamDma buf).oamData
      oamAddr := b2.ppu.oamAddr } := by
  have hlen := readSeq_length 256 b (page <<< 8) buf b2 h
  obtain ⟨hA, hV, hF⟩ := writeOamDma_spec buf b2.ppu hoam (by omega)
  have hA2 : (b2.ppu.writeOamDma buf).oamAddr = b2.ppu.oamAddr := by
    rw [hA, hlen]
    omega
  refine ⟨?_, hlen, hA2, ?_, ?_⟩
  · unfold Bus.memWrite
    rw [if_neg (by decide)]
    unfold Bus.memWriteBase
    rw [if_neg (by decide), if_neg (by decide), if_neg (by decide), if_neg (by decide),
      if_neg (by decide), if_neg (by decide), if_neg (by decide), if_neg (by decide),
      if_neg (by decide), if_pos rfl, h]
  · intro i hi
    exact hV i (by omega)
  · rw [hA2] at hF
    exact hF

set_option maxRecDepth 20000 in
/-- C10 witness: DMA from page 0 of the concrete zeroed bus — 256 reads
of WRAM zeros land in OAM and the pointer returns to 0. -/
theorem oam_dma_spec_witness :
    (busZero.readSeq ((0x00 : Nat) <<< 8) 256 = some (List.replicate 256 0, busZero) ∧
     busZero.ppu.oamAddr < 256) ∧
    (Bus.memWrite busZero 0x4014 0x00 =
      some { busZero with ppu := busZero.ppu.writeOamDma (List.replicate 256 0) } ∧
     (List.replicate 256 (0 : Nat)).length = 256 ∧
     (busZero.ppu.writeOamDma (List.replicate 256 0)).oamAddr = busZero.ppu.oamAddr ∧
     (∀ i, i < 256 →
       (busZero.ppu.writeOamDma (List.replicate 256 0)).oamData
         ((busZero.ppu.oamAddr + i) % 256) = (List.replicate 256 (0 : Nat)).getD i 0) ∧
     (busZero.ppu.writeOamDma (List.replicate 256 0)) = { busZero.ppu with
       oamData := (busZero.ppu.writeOamDma (List.replicate 256 0)).oamData
       oamAddr := busZero.ppu.oamAddr }) :=
  ⟨⟨rfl, by decide⟩,
   oam_dma_spec busZero 0x00 (List.replicate 256 0) busZero rfl (by decide)⟩

end NesRs
